import Mathlib

/-!
# Verification of the notion-cli façade and formatter core

Shallow embedding of the pagination-aggregating client loop
(`notion_cli/client.py`), the property-value codec and output formatter
(`notion_cli/formatters.py`), and the command-layer encoding paths
(`notion_cli/commands/database.py`, `notion_cli/commands/page.py`).

API data is JSON decoded into Python dicts/lists/scalars; we model it with
the `JVal` type below.  Python dicts preserve insertion order and are
modelled as association lists.  Operations that can raise a Python
exception (`KeyError`, `AttributeError`, `TypeError`) return `Except`.
-/

namespace NotionCli

/-- Python float values as produced by `float(str)`: finite values are
modelled exactly as rationals; the special values `inf`/`-inf`/`nan`
are kept symbolic.  (Binary rounding of decimal literals is immaterial
to the properties verified here.) -/
inductive PyNum where
  | finite (q : ℚ)
  | infty (neg : Bool)
  | nan
  deriving DecidableEq, Repr

/-- JSON-like values as decoded by the transport layer into Python data. -/
inductive JVal where
  | null
  | bool (b : Bool)
  | num (x : PyNum)
  | str (s : String)
  | arr (elems : List JVal)
  | obj (fields : List (String × JVal))

/-- Exceptions the modelled fragment can raise. -/
inductive PyErr where
  | keyError
  | attributeError
  | typeError
  deriving DecidableEq, Repr

/-- First binding of a key in a dict (Python dict keys are unique;
insertion order is preserved). -/
def objLookup (o : List (String × JVal)) (k : String) : Option JVal :=
  match o.find? (fun kv => kv.1 == k) with
  | some kv => some kv.2
  | none => none

/-- `o.get(k, d)` on a dict already known to be a dict. -/
def objLookupD (o : List (String × JVal)) (k : String) (d : JVal) : JVal :=
  match objLookup o k with
  | some v => v
  | none => d

/-- Python truthiness on JSON values. -/
def pyTruthy : JVal → Bool
  | .null => false
  | .bool b => b
  | .num (.finite q) => q ≠ 0
  | .num _ => true
  | .str s => s ≠ ""
  | .arr l => !l.isEmpty
  | .obj o => !o.isEmpty

/-- Python `v == lit` where `lit` is a string literal: equality holds only
when `v` is a string with the same contents (mixed-type `==` is `False`,
never an error). -/
def strEq (v : JVal) (lit : String) : Bool :=
  match v with
  | .str s => s == lit
  | _ => false

/-- `v.get(k, d)`: only dicts have `.get`; anything else raises
`AttributeError`. -/
def dictGetD (v : JVal) (k : String) (d : JVal) : Except PyErr JVal :=
  match v with
  | .obj o => .ok (objLookupD o k d)
  | _ => .error .attributeError

/-- `v[k]` subscript lookup on a dict: `KeyError` when the key is absent. -/
def dictGetItem (v : JVal) (k : String) : Except PyErr JVal :=
  match v with
  | .obj o =>
    match objLookup o k with
    | some x => .ok x
    | none => .error .keyError
  | _ => .error .typeError

/-- `for x in v`: lists yield their elements, strings their one-character
substrings, dicts their keys; scalars raise `TypeError`. -/
def pyIter : JVal → Except PyErr (List JVal)
  | .arr l => .ok l
  | .str s => .ok (s.toList.map fun c => .str (String.singleton c))
  | .obj o => .ok (o.map fun kv => .str kv.1)
  | _ => .error .typeError

/-- Python `str.lower()` restricted to the ASCII range (the strings the
code compares against are ASCII). -/
def pyCharLower (c : Char) : Char :=
  if 'A' ≤ c ∧ c ≤ 'Z' then Char.ofNat (c.toNat + 32) else c

def pyLower (s : String) : String :=
  String.mk (s.data.map pyCharLower)

/-- ASCII whitespace, as stripped by `str.strip()` and `float()`. -/
def isPyWs (c : Char) : Bool :=
  c = ' ' || c = '\t' || c = '\n' || c = '\r' || c = '\x0b' || c = '\x0c'

/-- Python `str.strip()` (ASCII fragment). -/
def pyStrip (s : String) : String :=
  String.mk (((s.data.dropWhile isPyWs).reverse.dropWhile isPyWs).reverse)

/-!
## Rich-text extraction (`formatters.py:361-365`)

```python
def _get_text_from_rich_text(self, rich_text):
    if not rich_text:
        return ""
    return "".join([t.get("plain_text", "") for t in rich_text])
```

The comprehension runs first (each element must support `.get`), then
`"".join` requires every collected part to be a string.
-/

/-- The list comprehension `[t.get("plain_text", "") for t in rich_text]`. -/
def getParts : List JVal → Except PyErr (List JVal)
  | [] => .ok []
  | t :: rest => do
    let v ← dictGetD t "plain_text" (.str "")
    let vs ← getParts rest
    .ok (v :: vs)

/-- `"".join(parts)`: `TypeError` on a non-string part. -/
def joinStrs : List JVal → Except PyErr String
  | [] => .ok ""
  | .str s :: rest => (joinStrs rest).map (fun r => s ++ r)
  | _ :: _ => .error .typeError

/-- `NotionDataFormatter._get_text_from_rich_text`. -/
def getTextFromRichText (v : JVal) : Except PyErr String :=
  if pyTruthy v then do
    let elems ← pyIter v
    let parts ← getParts elems
    joinStrs parts
  else .ok ""

/-- `NotionDataFormatter._get_title_from_property` (`formatters.py:352-355`):
extract from `prop.get("title", [])`. -/
def getTitleFromProperty (o : List (String × JVal)) : Except PyErr String :=
  getTextFromRichText (objLookupD o "title" (.arr []))

/-!
## Read-direction property codec (`NotionDataFormatter._simplify_properties`,
`formatters.py:281-317`)

The `elif` chain dispatches on `prop.get("type")` compared against string
literals; we render that dispatch as a classifier so the branches line up
one-to-one with the source.
-/

inductive PropKind where
  | title | richText | number | select | multiSelect | date | checkbox
  | url | email | phoneNumber | relation | people | other
  deriving DecidableEq, Repr

/-- The `elif prop_type == "..."` chain of `_simplify_properties`. -/
def propKindOf (t : Option JVal) : PropKind :=
  match t with
  | some v =>
    if strEq v "title" then .title
    else if strEq v "rich_text" then .richText
    else if strEq v "number" then .number
    else if strEq v "select" then .select
    else if strEq v "multi_select" then .multiSelect
    else if strEq v "date" then .date
    else if strEq v "checkbox" then .checkbox
    else if strEq v "url" then .url
    else if strEq v "email" then .email
    else if strEq v "phone_number" then .phoneNumber
    else if strEq v "relation" then .relation
    else if strEq v "people" then .people
    else .other
  | none => .other

/-- `[s.get(k) for s in elems]` (used with `"name"` for multi_select options
and `"id"` for relation entries). -/
def listGetField (k : String) : List JVal → Except PyErr (List JVal)
  | [] => .ok []
  | .obj o :: rest => (listGetField k rest).map (fun vs => objLookupD o k .null :: vs)
  | _ :: _ => .error .attributeError

/-- `[p.get("name", p.get("id")) for p in elems]` (people entries). -/
def listGetPeople : List JVal → Except PyErr (List JVal)
  | [] => .ok []
  | .obj o :: rest =>
    (listGetPeople rest).map (fun vs => objLookupD o "name" (objLookupD o "id" .null) :: vs)
  | _ :: _ => .error .attributeError

/-- `x.get(k) if x else None` (select's name, date's start). -/
def nullableField (x : JVal) (k : String) : Except PyErr JVal :=
  if pyTruthy x then
    match x with
    | .obj o => .ok (objLookupD o k .null)
    | _ => .error .attributeError
  else .ok .null

/-- One iteration of the `_simplify_properties` loop body for the value
`prop` of a single named property. -/
def simplifyProp (prop : JVal) : Except PyErr JVal :=
  match prop with
  | .obj o =>
    match propKindOf (objLookup o "type") with
    | .title => (getTitleFromProperty o).map .str
    | .richText => (getTextFromRichText (objLookupD o "rich_text" (.arr []))).map .str
    | .number => .ok (objLookupD o "number" .null)
    | .select => nullableField (objLookupD o "select" .null) "name"
    | .multiSelect => do
      let elems ← pyIter (objLookupD o "multi_select" (.arr []))
      let names ← listGetField "name" elems
      .ok (.arr names)
    | .date => nullableField (objLookupD o "date" .null) "start"
    | .checkbox => .ok (objLookupD o "checkbox" (.bool false))
    | .url => .ok (objLookupD o "url" .null)
    | .email => .ok (objLookupD o "email" .null)
    | .phoneNumber => .ok (objLookupD o "phone_number" .null)
    | .relation => do
      let elems ← pyIter (objLookupD o "relation" (.arr []))
      let ids ← listGetField "id" elems
      .ok (.arr ids)
    | .people => do
      let elems ← pyIter (objLookupD o "people" (.arr []))
      let names ← listGetPeople elems
      .ok (.arr names)
    | .other => .ok prop
  | _ => .error .attributeError

/-- The full `_simplify_properties` loop over `properties.items()`. -/
def simplifyProperties : List (String × JVal) → Except PyErr (List (String × JVal))
  | [] => .ok []
  | (name, prop) :: rest => do
    let v ← simplifyProp prop
    let vs ← simplifyProperties rest
    .ok ((name, v) :: vs)

/-!
## Database-schema simplification
(`NotionDataFormatter._simplify_database_properties`, `formatters.py:319-342`)

Note: the base record is built with `prop.get("type")` but the branch
dispatch below it uses the subscript `prop["type"]`, which raises
`KeyError` when the key is absent.
-/

/-- Loop body of `_simplify_database_properties` for one schema property. -/
def simplifyDbProp (prop : JVal) : Except PyErr JVal :=
  match prop with
  | .obj o =>
    let base := [("type", objLookupD o "type" .null), ("id", objLookupD o "id" .null)]
    match objLookup o "type" with
    | none => .error .keyError
    | some t =>
      if strEq t "select" then do
        let opts ← pyIter (← dictGetD (objLookupD o "select" (.obj [])) "options" (.arr []))
        let names ← listGetField "name" opts
        .ok (.obj (base ++ [("options", .arr names)]))
      else if strEq t "multi_select" then do
        let opts ← pyIter (← dictGetD (objLookupD o "multi_select" (.obj [])) "options" (.arr []))
        let names ← listGetField "name" opts
        .ok (.obj (base ++ [("options", .arr names)]))
      else if strEq t "relation" then do
        let dbid ← dictGetD (objLookupD o "relation" (.obj [])) "database_id" .null
        .ok (.obj (base ++ [("database_id", dbid)]))
      else .ok (.obj base)
  | _ => .error .attributeError

/-- The full `_simplify_database_properties` loop. -/
def simplifyDatabaseProperties : List (String × JVal) → Except PyErr (List (String × JVal))
  | [] => .ok []
  | (name, prop) :: rest => do
    let v ← simplifyDbProp prop
    let vs ← simplifyDatabaseProperties rest
    .ok ((name, v) :: vs)

/-!
## Search-result simplification
(`NotionDataFormatter.format_search_results`, `formatters.py:235-261`)
-/

/-- `v[:10]`: slicing works on strings and lists, raises `TypeError`
otherwise. -/
def pySlice10 (v : JVal) : Except PyErr JVal :=
  match v with
  | .str s => .ok (.str (String.mk (s.toList.take 10)))
  | .arr l => .ok (.arr (l.take 10))
  | _ => .error .typeError

/-- The `for prop_value in props.values(): if prop_value.get("type") ==
"title": ... break / else: "Untitled"` scan. -/
def scanTitle : List (String × JVal) → Except PyErr JVal
  | [] => .ok (.str "Untitled")
  | (_, pv) :: rest =>
    match pv with
    | .obj po =>
      if strEq (objLookupD po "type" .null) "title" then
        (getTitleFromProperty po).map .str
      else scanTitle rest
    | _ => .error .attributeError

/-- One iteration of the `format_search_results` loop: build the simplified
item for one search result.  Note `result["object"]` is a subscript
(`KeyError` when absent) while every other access uses `.get`. -/
def simplifySearchItem (result : JVal) : Except PyErr JVal :=
  match result with
  | .obj o => do
    let lastEdited ← pySlice10 (objLookupD o "last_edited_time" (.str ""))
    let base := [("type", objLookupD o "object" .null),
                 ("id", objLookupD o "id" .null),
                 ("url", objLookupD o "url" .null),
                 ("last_edited", lastEdited)]
    let objTag ← dictGetItem result "object"
    let title ←
      if strEq objTag "database" then
        (getTextFromRichText (objLookupD o "title" (.arr []))).map .str
      else
        match objLookupD o "properties" (.obj []) with
        | .obj props => scanTitle props
        | _ => .error .attributeError
    .ok (.obj (base ++ [("title", title)]))
  | _ => .error .attributeError

/-- The `simplified` list built by `format_search_results` (the subsequent
`self.formatter.format(simplified)` hands it to the output formatter). -/
def simplifySearchResults : List JVal → Except PyErr (List JVal)
  | [] => .ok []
  | r :: rest => do
    let item ← simplifySearchItem r
    let items ← simplifySearchResults rest
    .ok (item :: items)

/-!
## Table formatter (`TableFormatter`, `formatters.py:65-144`)

The rich/tabulate presentation layers are external; we model the rendered
content (headers, rows, cell strings), which is what the formatter itself
computes.  `json.dumps` (used for nested list/dict cell values) is an
external library call modelled up to the fragment exercised here
(string escaping elided).
-/

mutual

def jsonDumps : JVal → String
  | .null => "null"
  | .bool b => if b then "true" else "false"
  | .num (.finite q) => if q.den = 1 then toString q.num else toString q
  | .num (.infty neg) => if neg then "-Infinity" else "Infinity"
  | .num .nan => "NaN"
  | .str s => "\"" ++ s ++ "\""
  | .arr l => "[" ++ jsonDumpsList l ++ "]"
  | .obj o => "\x7b" ++ jsonDumpsObj o ++ "\x7d"

def jsonDumpsList : List JVal → String
  | [] => ""
  | [v] => jsonDumps v
  | v :: rest => jsonDumps v ++ ", " ++ jsonDumpsList rest

def jsonDumpsObj : List (String × JVal) → String
  | [] => ""
  | [(k, v)] => "\"" ++ k ++ "\": " ++ jsonDumps v
  | (k, v) :: rest => "\"" ++ k ++ "\": " ++ jsonDumps v ++ ", " ++ jsonDumpsObj rest

end

/-- Python `str()` on the scalar values that can reach the fall-through
branch of `_format_value` (floats print with a trailing `.0` when
integral; non-integral rendering is immaterial to the claims). -/
def pyStr : JVal → String
  | .null => "None"
  | .bool b => if b then "True" else "False"
  | .num (.finite q) => if q.den = 1 then toString q.num ++ ".0" else toString q
  | .num (.infty neg) => if neg then "-inf" else "inf"
  | .num .nan => "nan"
  | .str s => s
  | .arr l => jsonDumps (.arr l)
  | .obj o => jsonDumps (.obj o)

/-- `TableFormatter._format_value` (`formatters.py:133-144`).  The boolean
branch is transcribed exactly as written in the source:
`"✓" if value else "✗" if self.color else str(value)`, which Python
parses as `"✓" if value else ("✗" if self.color else str(value))`.
(Decoded JSON never contains `datetime` instances, so that branch is
unreachable in this fragment.) -/
def formatValue (color : Bool) (v : JVal) : String :=
  match v with
  | .null => ""
  | .bool b => if b then "✓" else if color then "✗" else pyStr (.bool b)
  | .arr l => jsonDumps (.arr l)
  | .obj o => jsonDumps (.obj o)
  | _ => pyStr v

/-- Rendered table content: `text` for branches that return a plain
string, `richTable`/`tabulated` for the rich (color) and tabulate
(no-color) presentations of tabular content. -/
inductive TableOut where
  | text (s : String)
  | richTable (headers : Option (List String)) (rows : List (List String))
  | tabulated (headers : List String) (rows : List (List String))
  deriving Repr

/-- Rows of `_format_dict`: key/value pairs with formatted values. -/
def kvRows (color : Bool) (o : List (String × JVal)) : List (List String) :=
  o.map (fun kv => [kv.1, formatValue color kv.2])

/-- Row of `_format_list_of_dicts` for one item: `item.get(h, "")`
per header. -/
def gridRow (color : Bool) (headers : List String) (item : JVal)
    : Except PyErr (List String) :=
  match item with
  | .obj o => .ok (headers.map (fun h => formatValue color (objLookupD o h (.str ""))))
  | _ => .error .attributeError

def gridRows (color : Bool) (headers : List String) : List JVal
    → Except PyErr (List (List String))
  | [] => .ok []
  | item :: rest => do
    let r ← gridRow color headers item
    let rs ← gridRows color headers rest
    .ok (r :: rs)

/-- `TableFormatter._format_list_of_dicts` (`formatters.py:100-124`):
headers are the keys of the first element. -/
def formatListOfDicts (color : Bool) (data : List JVal) : Except PyErr TableOut :=
  match data with
  | [] => .ok (.text "No data")
  | first :: _ =>
    match first with
    | .obj o => do
      let headers := o.map (fun kv => kv.1)
      let rows ← gridRows color headers data
      .ok (if color then .richTable (some headers) rows else .tabulated headers rows)
    | _ => .error .attributeError

/-- `TableFormatter._format_list` (`formatters.py:126-131`). -/
def formatScalarList (color : Bool) (data : List JVal) : TableOut :=
  if color then
    .text (String.intercalate "\n" (data.map (fun v => "• " ++ formatValue color v)))
  else
    .text (String.intercalate "\n" (data.map (fun v => "- " ++ formatValue color v)))

/-- `TableFormatter.format` (`formatters.py:68-83`). -/
def tableFormat (color : Bool) (data : JVal) : Except PyErr TableOut :=
  match data with
  | .obj o =>
    .ok (if color then .richTable none (kvRows color o)
         else .tabulated ["Key", "Value"] (kvRows color o))
  | .arr l =>
    match l with
    | [] => .ok (.text "No data to display")
    | first :: _ =>
      match first with
      | .obj _ => formatListOfDicts color l
      | _ => .ok (formatScalarList color l)
  | v => .ok (.text (pyStr v))

/-!
## Paginated-fetch aggregator (`client.py`)

`NotionClient.search` (lines 69-83), `query_database` (197-211),
`get_block_children` (276-291), `list_users` (324-339) and
`get_comments` (349-364) all run the same loop:

```python
results = []
has_more = True
start_cursor = None
while has_more:
    if start_cursor:
        params["start_cursor"] = start_cursor
    response = fetch(**params)
    results.extend(response["results"])
    has_more = response.get("has_more", False)
    start_cursor = response.get("next_cursor")
return results
```

`params` is a dict that persists across iterations: `start_cursor` is
written into it only when the local `start_cursor` variable is truthy, so
a falsy `next_cursor` leaves the previously stored cursor in place.

We model the transport by the finite sequence of responses the fetch
yields on successive invocations, and record the `start_cursor` value
present in `params` at each invocation (`none` = key absent).  If the
loop would invoke the fetch again after the response sequence is
exhausted, the run is undefined (`none`); a real transport always
answers, so that case corresponds to no realizable trace.
-/

/-- One page of a paginated response: `response["results"]`,
`response.get("has_more", False)`, `response.get("next_cursor")`. -/
structure PageResponse (α : Type) where
  results : List α
  has_more : Bool
  next_cursor : Option String
  deriving Repr, DecidableEq

/-- Truthiness of the `start_cursor` local (a string or `None`). -/
def cursorTruthy : Option String → Bool
  | some s => s ≠ ""
  | none => false

/-- The aggregation loop.  `pending` is the `start_cursor` local at the
top of the iteration; `params` is the cursor currently stored in the
`params` dict.  Returns the concatenated results together with the cursor
passed at each invocation. -/
def paginate {α : Type} (pending params : Option String) :
    List (PageResponse α) → Option (List α × List (Option String))
  | [] => none
  | r :: rest =>
    let params' := if cursorTruthy pending then pending else params
    if r.has_more then
      match paginate r.next_cursor params' rest with
      | some (items, calls) => some (r.results ++ items, params' :: calls)
      | none => none
    else
      some (r.results, [params'])

/-- `NotionClient.search` / `query_database` entry into the loop:
no cursor in `params`, `start_cursor = None`. -/
def runPaginated {α : Type} (responses : List (PageResponse α)) :
    Option (List α × List (Option String)) :=
  paginate none none responses

/-- A response sequence in which `has_more` is true for every page but the
last and false on the last (the shape quantified over by the pagination
claims; it necessarily has at least one page, since the loop's first
fetch always yields a response). -/
def wellFormedPages {α : Type} : List (PageResponse α) → Prop
  | [] => False
  | [r] => r.has_more = false
  | r :: rest => r.has_more = true ∧ wellFormedPages rest

instance {α : Type} : ∀ rs : List (PageResponse α), Decidable (wellFormedPages rs)
  | [] => isFalse (fun h => h)
  | [r] => decidable_of_iff (r.has_more = false) Iff.rfl
  | _ :: r' :: rest =>
    have : Decidable (wellFormedPages (r' :: rest)) :=
      instDecidableWellFormedPages (r' :: rest)
    instDecidableAnd

/-- Concatenation of all pages' items in page order. -/
def concatResults {α : Type} : List (PageResponse α) → List α
  | [] => []
  | r :: rest => r.results ++ concatResults rest

/-- The cursor present in `params` at each successive invocation, given
the loop state at entry (mirrors the cursor bookkeeping of
`paginate`). -/
def expectedCalls {α : Type} (pending params : Option String) :
    List (PageResponse α) → List (Option String)
  | [] => []
  | r :: rest =>
    let params' := if cursorTruthy pending then pending else params
    params' :: expectedCalls r.next_cursor params' rest

/-!
## Façade construction (`NotionClient.__init__`, `client.py:15-36`)

```python
self.auth = auth or os.getenv("NOTION_API_KEY")
if not self.auth:
    raise ValueError("No API key provided. ...")
self.client = Client(auth=self.auth)
self._test_connection()      # search(query="", page_size=1);
                             # APIResponseError -> ConnectionError
```
-/

inductive ApiError where
  | apiResponseError (msg : String)
  deriving DecidableEq, Repr

inductive InitResult where
  | ok (auth : String)
  | noApiKeyError
  | connectionError
  deriving DecidableEq, Repr

/-- Truthiness of an optional string (Python `or` / `if not self.auth`). -/
def strOptTruthy : Option String → Bool
  | some s => s ≠ ""
  | none => false

/-- `NotionClient.__init__` with the transport's single-page search
modelled as a function from `(query, page_size)` to a result.  The second
component records the remote search requests issued, in order. -/
def notionClientInit (authArg envKey : Option String)
    (search : String → Nat → Except ApiError (List JVal)) :
    InitResult × List (String × Nat) :=
  let auth : Option String := if strOptTruthy authArg then authArg else envKey
  match auth with
  | none => (.noApiKeyError, [])
  | some a =>
    if a = "" then (.noApiKeyError, [])
    else
      match search "" 1 with
      | .ok _ => (.ok a, [("", 1)])
      | .error _ => (.connectionError, [("", 1)])

/-!
## Python `float(str)` (used by the number branch of
`commands/database.py:create_page`)

Grammar accepted by CPython for string arguments: optional surrounding
whitespace, an optional sign, then either `inf`/`infinity`/`nan`
(case-insensitive) or a decimal literal `digits [. digits] [e sign
digits]` with at least one mantissa digit, where a single underscore may
separate two digits.  (ASCII fragment; non-ASCII decimal digits and
Unicode whitespace are outside the modelled character set.)  Finite
values are represented exactly as rationals.
-/

def digitVal (c : Char) : ℕ := c.toNat - 48

/-- Greedily consume a run of decimal digits, returning the value read,
the number of digits, and the rest. -/
def takeDigits : List Char → ℕ → ℕ → ℕ × ℕ × List Char
  | [], acc, n => (acc, n, [])
  | c :: cs, acc, n =>
    if c.isDigit then takeDigits cs (acc * 10 + digitVal c) (n + 1)
    else (acc, n, c :: cs)

/-- Every underscore must sit between two digits (CPython's rule for
numeric literals: `digit ("_" digit)*` in each digit part). -/
def underscoresOkGo : Option Char → List Char → Bool
  | _, [] => true
  | prev, c :: rest =>
    if c = '_' then
      (match prev with
       | some p => p.isDigit
       | none => false) &&
      (match rest with
       | n :: _ => n.isDigit
       | [] => false) &&
      underscoresOkGo (some c) rest
    else underscoresOkGo (some c) rest

def underscoresOk (cs : List Char) : Bool := underscoresOkGo none cs

/-- Exponent suffix: optional sign then a nonempty digit run consuming
the whole remainder. -/
def parseExpPart (mant : ℚ) (cs : List Char) : Option ℚ :=
  let (eneg, r) :=
    match cs with
    | '+' :: t => (false, t)
    | '-' :: t => (true, t)
    | t => (false, t)
  let (ev, ec, r2) := takeDigits r 0 0
  if ec = 0 ∨ r2 ≠ [] then none
  else some (if eneg then mant / (10 : ℚ) ^ ev else mant * (10 : ℚ) ^ ev)

/-- Decimal literal after sign removal and underscore stripping. -/
def parseDecimal (cs : List Char) : Option ℚ :=
  let (iv, ic, r1) := takeDigits cs 0 0
  let (fv, fc, r2) :=
    match r1 with
    | '.' :: r => takeDigits r 0 0
    | _ => (0, 0, r1)
  if ic + fc = 0 then none
  else
    let mant : ℚ := (iv : ℚ) + (fv : ℚ) / (10 : ℚ) ^ fc
    match r2 with
    | [] => some mant
    | 'e' :: r3 => parseExpPart mant r3
    | 'E' :: r3 => parseExpPart mant r3
    | _ => none

/-- `float(s)` on a string argument. -/
def pyFloat? (s : String) : Option PyNum :=
  let cs := ((s.data.dropWhile isPyWs).reverse.dropWhile isPyWs).reverse
  let (neg, body) :=
    match cs with
    | '+' :: r => (false, r)
    | '-' :: r => (true, r)
    | r => (false, r)
  let low := body.map pyCharLower
  if low = "inf".data ∨ low = "infinity".data then some (.infty neg)
  else if low = "nan".data then some .nan
  else if underscoresOk body then
    (parseDecimal (body.filter (fun c => c ≠ '_'))).map
      (fun q => .finite (if neg then -q else q))
  else none

/-!
## Schema-aware write-direction encode
(`commands/database.py:create_page`, lines 187-247)

For each `name=value` flag the command looks the name up in the fetched
database schema and builds the typed payload from the value string.  The
number branch is

```python
try:
    page_properties[name] = {"number": float(value)}
except ValueError:
    click.echo(f"Error: Invalid number value for {name}: {value}")
    ctx.exit(1)
```

i.e. a non-numeric value aborts the command locally (the spec's
`InvalidValueError`), without issuing the page-creation request.
-/

inductive BuildError where
  | invalidPropertyFormat (prop : String)
  | invalidNumberValue (name value : String)
  | schemaAttributeError
  deriving DecidableEq, Repr

/-- Outcome of one branch of the `prop_type` dispatch: a payload, a local
failure, or a skip-with-warning (unknown name / unsupported type). -/
inductive EncodeOutcome where
  | payload (v : JVal)
  | failed (e : BuildError)
  | skipped

/-- A single rich-text run `{"type": "text", "text": {"content": v}}`. -/
def textRun (v : String) : JVal :=
  .obj [("type", .str "text"), ("text", .obj [("content", .str v)])]

/-- `value.split(",")` (keeps empty parts, like Python). -/
def splitCommas (s : String) : List String := s.splitOn ","

/-- `tagIs t lit`: the schema's `prop.get("type")` compared with a
string literal. -/
def tagIs (t : Option JVal) (lit : String) : Bool :=
  match t with
  | some v => strEq v lit
  | none => false

/-- The `prop_type` dispatch of `create_page` for one property value. -/
def encodeForSchemaType (ptype : Option JVal) (name value : String) : EncodeOutcome :=
  if tagIs ptype "title" then
    .payload (.obj [("title", .arr [textRun value])])
  else if tagIs ptype "rich_text" then
    .payload (.obj [("rich_text", .arr [textRun value])])
  else if tagIs ptype "number" then
    match pyFloat? value with
    | some x => .payload (.obj [("number", .num x)])
    | none => .failed (.invalidNumberValue name value)
  else if tagIs ptype "checkbox" then
    .payload (.obj [("checkbox", .bool (["true", "1", "yes"].contains (pyLower value)))])
  else if tagIs ptype "select" then
    .payload (.obj [("select", .obj [("name", .str value)])])
  else if tagIs ptype "multi_select" then
    .payload (.obj [("multi_select",
      .arr ((splitCommas value).map (fun v => .obj [("name", .str (pyStrip v))])))])
  else if tagIs ptype "date" then
    .payload (.obj [("date", .obj [("start", .str value)])])
  else if tagIs ptype "url" then
    .payload (.obj [("url", .str value)])
  else if tagIs ptype "email" then
    .payload (.obj [("email", .str value)])
  else if tagIs ptype "phone_number" then
    .payload (.obj [("phone_number", .str value)])
  else .skipped

/-- `prop.split("=", 1)`. -/
def splitEq1 (s : String) : String × String :=
  match s.data.span (fun c => c ≠ '=') with
  | (pre, _ :: post) => (String.mk pre, String.mk post)
  | (pre, []) => (String.mk pre, "")

/-- The property-building loop of `create_page`: `--property name=value`
flags against the fetched schema `db_properties`. -/
def buildPageProperties (dbProperties : List (String × JVal)) :
    List String → Except BuildError (List (String × JVal))
  | [] => .ok []
  | p :: rest =>
    if p.data.contains '=' then
      let (name, value) := splitEq1 p
      match objLookup dbProperties name with
      | none => buildPageProperties dbProperties rest
      | some schemaProp =>
        match schemaProp with
        | .obj so =>
          match encodeForSchemaType (objLookup so "type") name value with
          | .payload pl =>
            (buildPageProperties dbProperties rest).map (fun acc => (name, pl) :: acc)
          | .failed e => .error e
          | .skipped => buildPageProperties dbProperties rest
        | _ => .error .schemaAttributeError
    else .error (.invalidPropertyFormat p)

/-- Remote requests the `create-page` command can issue (the schema fetch
always precedes the build; the page-creation request is issued only when
the build succeeds). -/
inductive RemoteCall where
  | getDatabase (id : String)
  | createPage (props : List (String × JVal))

/-- Remote-call trace of `create_page` after the façade is constructed:
`get_database`, then `pages.create` only on a successful build. -/
def createPageCalls (dbId : String) (dbProperties : List (String × JVal))
    (props : List String) : List RemoteCall :=
  .getDatabase dbId ::
    (match buildPageProperties dbProperties props with
     | .ok ps => [.createPage ps]
     | .error _ => [])

/-!
## Heuristic type inference (`commands/page.py:create`, lines 66-85)

Used for ad hoc `--property name=value` flags when no schema is
available:

```python
if value.lower() in ["true", "false"]:
    page_properties[name] = {"checkbox": value.lower() == "true"}
elif value.isdigit():
    page_properties[name] = {"number": int(value)}
else:
    page_properties[name] = {"rich_text": [{"type": "text",
                                            "text": {"content": value}}]}
```
-/

/-- Python `str.isdigit()` (ASCII fragment): nonempty and all decimal
digits. -/
def pyIsDigit (s : String) : Bool :=
  !s.data.isEmpty && s.data.all Char.isDigit

/-- `int(value)` on an all-digit string. -/
def digitsToNat (s : String) : ℕ :=
  s.data.foldl (fun n c => n * 10 + digitVal c) 0

/-- The inference branch of `page create` for one `name=value` flag. -/
def inferPropertyValue (value : String) : JVal :=
  if pyLower value = "true" ∨ pyLower value = "false" then
    .obj [("checkbox", .bool (pyLower value = "true"))]
  else if pyIsDigit value then
    .obj [("number", .num (.finite (digitsToNat value)))]
  else
    .obj [("rich_text", .arr [textRun value])]

/-!
## Well-formedness of API records

The data model (spec §3) describes the shapes the remote API delivers:
rich text is a sequence of runs, each an object whose `plain_text`, when
present, is a string; property values and search results are objects
whose type-specific payloads have the declared shapes.  The predicates
below capture those shapes (keys may be absent; that is the point of the
totality claims).
-/

/-- A rich-text run: an object whose `plain_text`, if present, is a
string. -/
def wfRun (v : JVal) : Bool :=
  match v with
  | .obj o =>
    match objLookup o "plain_text" with
    | none => true
    | some (.str _) => true
    | some _ => false
  | _ => false

/-- A rich-text payload as stored under a `title`/`rich_text` key:
a (possibly empty) array of runs, or null. -/
def wfRichText (v : JVal) : Bool :=
  match v with
  | .null => true
  | .arr runs => runs.all wfRun
  | _ => false

/-- Shapes accepted by nullable object payloads (select, date): absent,
falsy, or an object. -/
def wfNullableObj (v : JVal) : Bool :=
  match v with
  | .obj _ => true
  | v => !pyTruthy v

/-- An array all of whose elements are objects. -/
def wfObjArray (v : JVal) : Bool :=
  match v with
  | .arr l => l.all (fun e => match e with | .obj _ => true | _ => false)
  | _ => false

/-- A well-formed property value for `_simplify_properties`: an object
whose variant payload, keyed by its declared type, has the data model's
shape. -/
def wfProp (v : JVal) : Bool :=
  match v with
  | .obj o =>
    match propKindOf (objLookup o "type") with
    | .title => wfRichText (objLookupD o "title" (.arr []))
    | .richText => wfRichText (objLookupD o "rich_text" (.arr []))
    | .select => wfNullableObj (objLookupD o "select" .null)
    | .multiSelect => wfObjArray (objLookupD o "multi_select" (.arr []))
    | .date => wfNullableObj (objLookupD o "date" .null)
    | .relation => wfObjArray (objLookupD o "relation" (.arr []))
    | .people => wfObjArray (objLookupD o "people" (.arr []))
    | _ => true
  | _ => false

/-- A page property as scanned by `format_search_results`: an object, and
when its type tag is `title` its `title` payload is well-formed rich
text. -/
def wfScannedProp (v : JVal) : Bool :=
  match v with
  | .obj po =>
    if strEq (objLookupD po "type" .null) "title" then
      wfRichText (objLookupD po "title" (.arr []))
    else true
  | _ => false

/-- A well-formed search result: an object carrying an `object` tag,
whose `last_edited_time`, if present, is a string, whose `title`, if
present, is well-formed rich text (database results), and whose
`properties`, if present, is a map of well-formed property objects
(page results). -/
def wfSearchResult (v : JVal) : Bool :=
  match v with
  | .obj o =>
    (objLookup o "object").isSome
      && (match objLookupD o "last_edited_time" (.str "") with
          | .str _ => true
          | _ => false)
      && wfRichText (objLookupD o "title" (.arr []))
      && (match objLookupD o "properties" (.obj []) with
          | .obj props => props.all (fun kv => wfScannedProp kv.2)
          | _ => false)
  | _ => false

/-- A well-formed database schema property for
`_simplify_database_properties`: an object with a `type` key whose
`select`/`multi_select` payloads, if present, are objects with
object-array `options`, and whose `relation` payload, if present, is an
object. -/
def wfDbProp (v : JVal) : Bool :=
  match v with
  | .obj o =>
    (objLookup o "type").isSome
      && (match objLookup o "select" with
          | none => true
          | some (.obj so) => wfObjArray (objLookupD so "options" (.arr []))
          | some _ => false)
      && (match objLookup o "multi_select" with
          | none => true
          | some (.obj so) => wfObjArray (objLookupD so "options" (.arr []))
          | some _ => false)
      && (match objLookup o "relation" with
          | none => true
          | some (.obj _) => true
          | some _ => false)
  | _ => false

/-!
## Specification-side helpers for stating the claims
-/

/-- Did the operation complete without raising? -/
def isOkE {ε α : Type} : Except ε α → Bool
  | .ok _ => true
  | .error _ => false

/-- The `plain_text` of a run as the data model reads it: the stored
string, or the empty string when the key is absent. -/
def runPlainText (r : JVal) : String :=
  match r with
  | .obj o =>
    match objLookup o "plain_text" with
    | some (.str s) => s
    | _ => ""
  | _ => ""

/-- Order-preserving concatenation of a sequence of strings. -/
def concatAll : List String → String
  | [] => ""
  | s :: rest => s ++ concatAll rest

/-- The first property value (in insertion order) whose type tag is
`title`, per the spec's title-derivation rule (§4.4). -/
def firstTitleProp : List (String × JVal) → Option JVal
  | [] => none
  | (_, pv) :: rest =>
    match pv with
    | .obj po =>
      if strEq (objLookupD po "type" .null) "title" then some (.obj po)
      else firstTitleProp rest
    | _ => firstTitleProp rest

/-- The `title` field of a simplified search-result item. -/
def itemTitle (item : JVal) : Option JVal :=
  match item with
  | .obj fields => objLookup fields "title"
  | _ => none

/-!
# Theorems

## Rich-text extraction
-/

theorem getParts_eq_of_wf (runs : List JVal) (h : runs.all wfRun = true) :
    getParts runs = .ok (runs.map (fun r => .str (runPlainText r))) := by
  induction runs with
  | nil => rfl
  | cons r rest ih =>
    simp only [List.all_cons, Bool.and_eq_true] at h
    obtain ⟨hr, hrest⟩ := h
    match r with
    | .obj o =>
      simp only [getParts, dictGetD, objLookupD, ih hrest]
      cases hpt : objLookup o "plain_text" with
      | none => simp only [List.map_cons, runPlainText, hpt]; rfl
      | some v =>
        simp only [wfRun, hpt] at hr
        match v with
        | .str s => simp only [List.map_cons, runPlainText, hpt]; rfl

theorem joinStrs_map_str (l : List String) :
    joinStrs (l.map .str) = .ok (concatAll l) := by
  induction l with
  | nil => rfl
  | cons s rest ih =>
    simp only [List.map_cons, joinStrs, ih, concatAll]
    rfl

theorem getTextFromRichText_arr_of_wf (runs : List JVal)
    (h : runs.all wfRun = true) :
    getTextFromRichText (.arr runs) = .ok (concatAll (runs.map runPlainText)) := by
  cases runs with
  | nil => rfl
  | cons r rest =>
    have hm : (r :: rest).map (fun x => JVal.str (runPlainText x)) =
        ((r :: rest).map runPlainText).map JVal.str := by
      simp [List.map_map, Function.comp]
    simp only [getTextFromRichText, pyTruthy, List.isEmpty_cons, Bool.not_false, if_true, pyIter]
    simp only [bind, Except.bind, getParts_eq_of_wf _ h, hm]
    exact joinStrs_map_str _

theorem getTextFromRichText_ok_of_wf (v : JVal) (h : wfRichText v = true) :
    isOkE (getTextFromRichText v) = true := by
  match v with
  | .null => rfl
  | .arr runs =>
    rw [getTextFromRichText_arr_of_wf runs (by simpa [wfRichText] using h)]
    rfl

/-- C7: for every RichText — a sequence of runs, each an object whose
`plain_text`, when present, is a string — `_get_text_from_rich_text`
returns the concatenation of each run's `plain_text` (absent keys
contributing the empty string) in sequence order, never raising; the
empty sequence yields the empty string. -/
theorem richtext_extraction_concat (runs : List JVal)
    (h : runs.all wfRun = true) :
    getTextFromRichText (.arr runs) = .ok (concatAll (runs.map runPlainText)) ∧
    getTextFromRichText (.arr []) = .ok "" :=
  ⟨getTextFromRichText_arr_of_wf runs h, rfl⟩

theorem isOkE_iff {ε α : Type} (e : Except ε α) :
    isOkE e = true ↔ ∃ a, e = .ok a := by
  cases e <;> simp [isOkE]

@[simp] theorem ok_bind {ε α β : Type} (a : α) (f : α → Except ε β) :
    (Except.ok a >>= f) = f a := rfl

@[simp] theorem error_bind {ε α β : Type} (e : ε) (f : α → Except ε β) :
    ((Except.error e : Except ε α) >>= f) = .error e := rfl

@[simp] theorem exceptMap_ok {ε α β : Type} (f : α → β) (a : α) :
    Except.map f (.ok a : Except ε α) = .ok (f a) := rfl

@[simp] theorem exceptMap_error {ε α β : Type} (f : α → β) (e : ε) :
    Except.map f (.error e : Except ε α) = .error e := rfl

@[simp] theorem isOkE_ok {ε α : Type} (a : α) : isOkE (.ok a : Except ε α) = true := rfl

@[simp] theorem isOkE_error {ε α : Type} (e : ε) :
    isOkE (.error e : Except ε α) = false := rfl

theorem listGetField_ok (k : String) (l : List JVal)
    (h : l.all (fun e => match e with | .obj _ => true | _ => false) = true) :
    isOkE (listGetField k l) = true := by
  induction l with
  | nil => rfl
  | cons e rest ih =>
    simp only [List.all_cons, Bool.and_eq_true] at h
    obtain ⟨he, hrest⟩ := h
    match e with
    | .obj o =>
      obtain ⟨vs, hvs⟩ := (isOkE_iff _).mp (ih hrest)
      simp [listGetField, hvs, isOkE]

theorem listGetPeople_ok (l : List JVal)
    (h : l.all (fun e => match e with | .obj _ => true | _ => false) = true) :
    isOkE (listGetPeople l) = true := by
  induction l with
  | nil => rfl
  | cons e rest ih =>
    simp only [List.all_cons, Bool.and_eq_true] at h
    obtain ⟨he, hrest⟩ := h
    match e with
    | .obj o =>
      obtain ⟨vs, hvs⟩ := (isOkE_iff _).mp (ih hrest)
      simp [listGetPeople, hvs, isOkE]

theorem nullableField_ok (x : JVal) (k : String) (h : wfNullableObj x = true) :
    isOkE (nullableField x k) = true := by
  match x with
  | .obj o =>
    simp only [nullableField]
    split <;> rfl
  | .null => rfl
  | .bool b | .num q | .str s | .arr l =>
    simp only [wfNullableObj, Bool.not_eq_true'] at h
    simp [nullableField, h]

theorem wfObjArray_iter_fields_ok (k : String) (v : JVal) (h : wfObjArray v = true) :
    ∃ l, pyIter v = .ok l ∧ isOkE (listGetField k l) = true := by
  match v with
  | .arr l =>
    exact ⟨l, rfl, listGetField_ok k l (by simpa [wfObjArray] using h)⟩

theorem simplifyProp_ok (v : JVal) (h : wfProp v = true) :
    isOkE (simplifyProp v) = true := by
  match v with
  | .obj o =>
    simp only [wfProp] at h
    simp only [simplifyProp]
    cases hk : propKindOf (objLookup o "type") <;> simp only [hk] at h
    case title =>
      obtain ⟨s, hs⟩ := (isOkE_iff _).mp (getTextFromRichText_ok_of_wf _ h)
      simp only [getTitleFromProperty]
      simp [hs]
    case richText =>
      obtain ⟨s, hs⟩ := (isOkE_iff _).mp (getTextFromRichText_ok_of_wf _ h)
      simp [hs]
    case number => rfl
    case select => exact nullableField_ok _ _ h
    case multiSelect =>
      obtain ⟨l, hl, hok⟩ := wfObjArray_iter_fields_ok "name" _ h
      obtain ⟨vs, hvs⟩ := (isOkE_iff _).mp hok
      simp [hl, hvs, isOkE]
    case date => exact nullableField_ok _ _ h
    case checkbox => rfl
    case url => rfl
    case email => rfl
    case phoneNumber => rfl
    case relation =>
      obtain ⟨l, hl, hok⟩ := wfObjArray_iter_fields_ok "id" _ h
      obtain ⟨vs, hvs⟩ := (isOkE_iff _).mp hok
      simp [hl, hvs, isOkE]
    case people =>
      match hms : objLookupD o "people" (.arr []) with
      | .arr l =>
        rw [hms] at h
        have hall : l.all (fun e => match e with | .obj _ => true | _ => false) = true := by
          simpa [wfObjArray] using h
        obtain ⟨vs, hvs⟩ := (isOkE_iff _).mp (listGetPeople_ok l hall)
        simp [hms, hvs, isOkE, pyIter]
      | .null | .bool b | .num q | .str s | .obj oo => rw [hms] at h; simp [wfObjArray] at h
    case other => rfl

theorem simplifyProperties_ok (props : List (String × JVal))
    (h : props.all (fun kv => wfProp kv.2) = true) :
    isOkE (simplifyProperties props) = true := by
  induction props with
  | nil => rfl
  | cons kv rest ih =>
    simp only [List.all_cons, Bool.and_eq_true] at h
    obtain ⟨hkv, hrest⟩ := h
    obtain ⟨v1, hv1⟩ := (isOkE_iff _).mp (simplifyProp_ok kv.2 hkv)
    obtain ⟨vs, hvs⟩ := (isOkE_iff _).mp (ih hrest)
    simp [simplifyProperties, hv1, hvs, isOkE]

/-- C6: the read-direction simplify is total over well-formed property
values, and yields the variant defaults: a checkbox property with no
explicit value simplifies to `false`, a select property with null
selection simplifies to null, and a multi_select property with an empty
option list simplifies to the empty sequence. -/
theorem simplify_totality_and_defaults (props : List (String × JVal))
    (h : props.all (fun kv => wfProp kv.2) = true) :
    isOkE (simplifyProperties props) = true ∧
    simplifyProp (.obj [("type", .str "checkbox")]) = .ok (.bool false) ∧
    simplifyProp (.obj [("type", .str "select"), ("select", .null)]) = .ok .null ∧
    simplifyProp (.obj [("type", .str "multi_select"), ("multi_select", .arr [])]) =
      .ok (.arr []) :=
  ⟨simplifyProperties_ok props h, rfl, rfl, rfl⟩

theorem simplify_totality_and_defaults_witness :
    ([("Done", .obj [("type", .str "checkbox"), ("checkbox", .bool true)]),
      ("Tags", .obj [("type", .str "multi_select"),
                     ("multi_select", .arr [.obj [("name", .str "a")]])])]
        : List (String × JVal)).all (fun kv => wfProp kv.2) = true ∧
    isOkE (simplifyProperties
      [("Done", .obj [("type", .str "checkbox"), ("checkbox", .bool true)]),
       ("Tags", .obj [("type", .str "multi_select"),
                      ("multi_select", .arr [.obj [("name", .str "a")]])])]) = true := by
  refine ⟨by decide, ?_⟩
  exact (simplify_totality_and_defaults _ (by decide)).1

theorem scanTitle_ok (props : List (String × JVal))
    (h : props.all (fun kv => wfScannedProp kv.2) = true) :
    isOkE (scanTitle props) = true := by
  induction props with
  | nil => rfl
  | cons kv rest ih =>
    simp only [List.all_cons, Bool.and_eq_true] at h
    obtain ⟨hkv, hrest⟩ := h
    obtain ⟨n, pv⟩ := kv
    match pv with
    | .obj po =>
      simp only [wfScannedProp] at hkv
      simp only [scanTitle]
      cases hc : strEq (objLookupD po "type" .null) "title" with
      | false =>
        simp only [hc, Bool.false_eq_true, if_false]
        exact ih hrest
      | true =>
        simp only [hc, if_true] at hkv ⊢
        obtain ⟨s, hs⟩ := (isOkE_iff _).mp (getTextFromRichText_ok_of_wf _ hkv)
        simp only [getTitleFromProperty]
        simp [hs]

theorem scanTitle_eq_untitled (props : List (String × JVal))
    (hwf : props.all (fun kv => wfScannedProp kv.2) = true)
    (h : firstTitleProp props = none) :
    scanTitle props = .ok (.str "Untitled") := by
  induction props with
  | nil => rfl
  | cons kv rest ih =>
    simp only [List.all_cons, Bool.and_eq_true] at hwf
    obtain ⟨hkv, hrest⟩ := hwf
    obtain ⟨n, pv⟩ := kv
    match pv with
    | .obj po =>
      simp only [firstTitleProp] at h
      simp only [scanTitle]
      cases hc : strEq (objLookupD po "type" .null) "title" with
      | false =>
        simp only [hc, Bool.false_eq_true, if_false] at h ⊢
        exact ih hrest h
      | true => simp [hc] at h

theorem scanTitle_eq_first (props : List (String × JVal))
    (hwf : props.all (fun kv => wfScannedProp kv.2) = true)
    (pv : JVal) (h : firstTitleProp props = some pv) :
    ∃ po, pv = .obj po ∧ scanTitle props = (getTitleFromProperty po).map .str := by
  induction props with
  | nil => simp [firstTitleProp] at h
  | cons kv rest ih =>
    simp only [List.all_cons, Bool.and_eq_true] at hwf
    obtain ⟨hkv, hrest⟩ := hwf
    obtain ⟨n, pv'⟩ := kv
    match pv' with
    | .obj po =>
      simp only [firstTitleProp] at h
      simp only [scanTitle]
      cases hc : strEq (objLookupD po "type" .null) "title" with
      | false =>
        simp only [hc, Bool.false_eq_true, if_false] at h ⊢
        exact ih hrest h
      | true =>
        simp only [hc, if_true] at h ⊢
        exact ⟨po, (Option.some_inj.mp h).symm, rfl⟩

theorem wfSearchResult_parts (o : List (String × JVal))
    (h : wfSearchResult (.obj o) = true) :
    (objLookup o "object").isSome = true ∧
    (∃ s, objLookupD o "last_edited_time" (.str "") = .str s) ∧
    wfRichText (objLookupD o "title" (.arr [])) = true ∧
    ∃ props, objLookupD o "properties" (.obj []) = .obj props ∧
      props.all (fun kv => wfScannedProp kv.2) = true := by
  simp only [wfSearchResult, Bool.and_eq_true] at h
  obtain ⟨⟨⟨hobj, hle⟩, htitle⟩, hprops⟩ := h
  refine ⟨hobj, ?_, htitle, ?_⟩
  · match hm : objLookupD o "last_edited_time" (.str "") with
    | .str s => exact ⟨s, rfl⟩
    | .null | .bool b | .num q | .arr l | .obj oo => rw [hm] at hle; simp at hle
  · match hm : objLookupD o "properties" (.obj []) with
    | .obj props => rw [hm] at hprops; exact ⟨props, rfl, hprops⟩
    | .null | .bool b | .num q | .arr l | .str s => rw [hm] at hprops; simp at hprops

theorem simplifySearchItem_page (o : List (String × JVal))
    (props : List (String × JVal))
    (hwf : wfSearchResult (.obj o) = true)
    (hobj : objLookup o "object" = some (.str "page"))
    (hprops : objLookupD o "properties" (.obj []) = .obj props) :
    ∃ les, simplifySearchItem (.obj o) =
      (scanTitle props).map (fun t =>
        .obj [("type", objLookupD o "object" .null),
              ("id", objLookupD o "id" .null),
              ("url", objLookupD o "url" .null),
              ("last_edited", .str les), ("title", t)]) := by
  obtain ⟨-, ⟨les, hles⟩, -, -⟩ := wfSearchResult_parts o hwf
  refine ⟨String.mk (les.toList.take 10), ?_⟩
  simp only [simplifySearchItem, hles, pySlice10, dictGetItem, hobj, ok_bind, hprops]
  have hdb : strEq (.str "page") "database" = false := rfl
  simp only [hdb, Bool.false_eq_true, if_false]
  cases hst : scanTitle props <;> simp [hst, Except.map]

theorem simplifySearchItem_ok (r : JVal) (h : wfSearchResult r = true) :
    isOkE (simplifySearchItem r) = true := by
  match r with
  | .obj o =>
    obtain ⟨hobj, ⟨les, hles⟩, htitle, props, hpm, hpall⟩ := wfSearchResult_parts o h
    obtain ⟨tag, htag⟩ := Option.isSome_iff_exists.mp hobj
    simp only [simplifySearchItem, hles, pySlice10, dictGetItem, htag, ok_bind]
    cases hdb : strEq tag "database" with
    | true =>
      simp only [hdb, if_true]
      obtain ⟨s, hs⟩ := (isOkE_iff _).mp (getTextFromRichText_ok_of_wf _ htitle)
      simp [hs]
    | false =>
      simp only [hdb, Bool.false_eq_true, if_false, hpm]
      obtain ⟨t, ht⟩ := (isOkE_iff _).mp (scanTitle_ok props hpall)
      simp [ht]

theorem simplifySearchResults_ok (results : List JVal)
    (h : results.all wfSearchResult = true) :
    isOkE (simplifySearchResults results) = true := by
  induction results with
  | nil => rfl
  | cons r rest ih =>
    simp only [List.all_cons, Bool.and_eq_true] at h
    obtain ⟨hr, hrest⟩ := h
    obtain ⟨item, hitem⟩ := (isOkE_iff _).mp (simplifySearchItem_ok r hr)
    obtain ⟨items, hitems⟩ := (isOkE_iff _).mp (ih hrest)
    simp [simplifySearchResults, hitem, hitems]

theorem simplifyDbProp_ok (v : JVal) (h : wfDbProp v = true) :
    isOkE (simplifyDbProp v) = true := by
  match v with
  | .obj o =>
    simp only [wfDbProp, Bool.and_eq_true] at h
    obtain ⟨⟨⟨htype, hsel⟩, hms⟩, hrel⟩ := h
    obtain ⟨t, ht⟩ := Option.isSome_iff_exists.mp htype
    simp only [simplifyDbProp, ht]
    cases hc1 : strEq t "select" with
    | true =>
      simp only [hc1, if_true]
      match hm : objLookup o "select" with
      | none =>
        simp only [objLookupD, hm, dictGetD]
        rfl
      | some sv =>
        rw [hm] at hsel
        match sv with
        | .obj so =>
          obtain ⟨l, hl, hok⟩ := wfObjArray_iter_fields_ok "name" _ hsel
          obtain ⟨vs, hvs⟩ := (isOkE_iff _).mp hok
          simp only [objLookupD] at hl
          simp [objLookupD, hm, dictGetD, hl, hvs]
        | .null | .bool b | .num q | .arr l | .str s => simp at hsel
    | false =>
      simp only [hc1, Bool.false_eq_true, if_false]
      cases hc2 : strEq t "multi_select" with
      | true =>
        simp only [hc2, if_true]
        match hm : objLookup o "multi_select" with
        | none =>
          simp only [objLookupD, hm, dictGetD]
          rfl
        | some sv =>
          rw [hm] at hms
          match sv with
          | .obj so =>
            obtain ⟨l, hl, hok⟩ := wfObjArray_iter_fields_ok "name" _ hms
            obtain ⟨vs, hvs⟩ := (isOkE_iff _).mp hok
            simp only [objLookupD] at hl
            simp [objLookupD, hm, dictGetD, hl, hvs]
          | .null | .bool b | .num q | .arr l | .str s => simp at hms
      | false =>
        simp only [hc2, Bool.false_eq_true, if_false]
        cases hc3 : strEq t "relation" with
        | true =>
          simp only [hc3, if_true]
          match hm : objLookup o "relation" with
          | none => simp [objLookupD, hm, dictGetD]
          | some sv =>
            rw [hm] at hrel
            match sv with
            | .obj so => simp [objLookupD, hm, dictGetD]
            | .null | .bool b | .num q | .arr l | .str s => simp at hrel
        | false => simp [hc3]

theorem simplifyDatabaseProperties_ok (props : List (String × JVal))
    (h : props.all (fun kv => wfDbProp kv.2) = true) :
    isOkE (simplifyDatabaseProperties props) = true := by
  induction props with
  | nil => rfl
  | cons kv rest ih =>
    simp only [List.all_cons, Bool.and_eq_true] at h
    obtain ⟨hkv, hrest⟩ := h
    obtain ⟨v1, hv1⟩ := (isOkE_iff _).mp (simplifyDbProp_ok kv.2 hkv)
    obtain ⟨vs, hvs⟩ := (isOkE_iff _).mp (ih hrest)
    simp [simplifyDatabaseProperties, hv1, hvs]

/-- C2 (counterexample): a page whose only property is a title-typed
property with an empty RichText gets display title `""`, not
`"Untitled"` — the `for/else` in `format_search_results` falls through
to `"Untitled"` only when no title-typed property exists. -/
theorem search_title_claim_counterexample :
    simplifySearchItem (.obj [("object", .str "page"),
      ("properties", .obj [("Name", .obj [("type", .str "title"),
        ("title", .arr [])])])]) =
      .ok (.obj [("type", .str "page"), ("id", .null), ("url", .null),
                 ("last_edited", .str ""), ("title", .str "")]) ∧
    (JVal.str "" ≠ JVal.str "Untitled") :=
  ⟨rfl, fun h => by injection h with h'; exact absurd h' (by decide)⟩

/-- C2 (amended): for every well-formed search result whose object tag is
"page", the derived display title is the extracted RichText of the first
property in insertion order whose type tag is "title" (the empty string
when that RichText is empty), and it is the literal "Untitled" exactly
when no title-typed property exists. -/
theorem search_title_derivation (o props : List (String × JVal))
    (hwf : wfSearchResult (.obj o) = true)
    (hobj : objLookup o "object" = some (.str "page"))
    (hprops : objLookupD o "properties" (.obj []) = .obj props) :
    (firstTitleProp props = none →
      ∃ item, simplifySearchItem (.obj o) = .ok item ∧
        itemTitle item = some (.str "Untitled")) ∧
    (∀ pv, firstTitleProp props = some pv →
      ∃ po s, pv = .obj po ∧ getTitleFromProperty po = .ok s ∧
        ∃ item, simplifySearchItem (.obj o) = .ok item ∧
          itemTitle item = some (.str s)) := by
  obtain ⟨-, -, -, props', hpm', hall'⟩ := wfSearchResult_parts o hwf
  rw [hprops] at hpm'
  injection hpm' with hpe
  subst hpe
  obtain ⟨les, hitem⟩ := simplifySearchItem_page o props hwf hobj hprops
  constructor
  · intro hnone
    rw [scanTitle_eq_untitled props hall' hnone] at hitem
    simp only [exceptMap_ok] at hitem
    exact ⟨_, hitem, rfl⟩
  · intro pv hsome
    obtain ⟨po, hpv, hscan⟩ := scanTitle_eq_first props hall' pv hsome
    have hok := scanTitle_ok props hall'
    rw [hscan] at hok hitem
    cases hgt : getTitleFromProperty po with
    | error e => rw [hgt] at hok; simp at hok
    | ok s =>
      rw [hgt] at hitem
      simp only [exceptMap_ok] at hitem
      exact ⟨po, s, hpv, hgt, _, hitem, rfl⟩

theorem search_title_derivation_witness :
    wfSearchResult (.obj [("object", .str "page"),
      ("properties", .obj [("Tags", .obj [("type", .str "multi_select"),
        ("multi_select", .arr [])])])]) = true ∧
    ∃ item, simplifySearchItem (.obj [("object", .str "page"),
      ("properties", .obj [("Tags", .obj [("type", .str "multi_select"),
        ("multi_select", .arr [])])])]) = .ok item ∧
      itemTitle item = some (.str "Untitled") := by
  refine ⟨by decide, ?_⟩
  exact (search_title_derivation
    [("object", .str "page"),
     ("properties", .obj [("Tags", .obj [("type", .str "multi_select"),
       ("multi_select", .arr [])])])]
    [("Tags", .obj [("type", .str "multi_select"), ("multi_select", .arr [])])]
    (by decide) rfl rfl).1 rfl

/-- C4 (counterexample): the formatter is not total on absent keys —
simplifying a search result lacking the `object` key raises `KeyError`
(`result["object"]`, formatters.py:248), as does simplifying a database
schema property lacking the `type` key (`prop["type"]`,
formatters.py:330). -/
theorem formatter_totality_counterexample :
    simplifySearchResults [.obj []] = .error .keyError ∧
    simplifyDatabaseProperties [("X", .obj [])] = .error .keyError :=
  ⟨rfl, rfl⟩

/-- C4 (amended): the simplification and rendering stages substitute an
empty string or the variant default for absent keys and never raise on
well-formed input, except at exactly two places: `format_search_results`
requires each result's `object` key and `_simplify_database_properties`
requires each schema property's `type` key, both raising `KeyError` when
absent.  A missing column key in the table renderer yields an empty
cell. -/
theorem formatter_totality (results : List JVal)
    (dbprops : List (String × JVal))
    (h1 : results.all wfSearchResult = true)
    (h2 : dbprops.all (fun kv => wfDbProp kv.2) = true) :
    isOkE (simplifySearchResults results) = true ∧
    isOkE (simplifyDatabaseProperties dbprops) = true ∧
    simplifySearchResults [.obj []] = .error .keyError ∧
    simplifyDatabaseProperties [("X", .obj [])] = .error .keyError ∧
    tableFormat false (.arr [.obj [("a", .str "x"), ("b", .str "y")],
      .obj [("a", .str "z")]]) =
      .ok (.tabulated ["a", "b"] [["x", "y"], ["z", ""]]) :=
  ⟨simplifySearchResults_ok results h1, simplifyDatabaseProperties_ok dbprops h2,
   rfl, rfl, rfl⟩

theorem formatter_totality_witness :
    ([.obj [("object", .str "database"), ("title", .arr [.obj [("plain_text",
        .str "DB")]])]] : List JVal).all wfSearchResult = true ∧
    ([("Status", .obj [("type", .str "select"), ("id", .str "aa"),
        ("select", .obj [("options", .arr [.obj [("name", .str "Done")]])])])]
      : List (String × JVal)).all (fun kv => wfDbProp kv.2) = true ∧
    isOkE (simplifySearchResults [.obj [("object", .str "database"),
      ("title", .arr [.obj [("plain_text", .str "DB")]])]]) = true := by
  refine ⟨by decide, by decide, ?_⟩
  exact (formatter_totality
    [.obj [("object", .str "database"), ("title", .arr [.obj [("plain_text", .str "DB")]])]]
    [("Status", .obj [("type", .str "select"), ("id", .str "aa"),
      ("select", .obj [("options", .arr [.obj [("name", .str "Done")]])])])]
    (by decide) (by decide)).1

/-- C5: boolean cells in the table renderer.  With color enabled the
glyphs are produced as specified; with color disabled `False` renders as
the literal text, but `True` still renders as the check glyph — the
source's `"✓" if value else "✗" if self.color else str(value)`
parenthesizes as `"✓" if value else (...)`, so the `True` arm ignores
the color flag.  This exhibits the deviation at `value = True`,
`color = False`. -/
theorem table_boolean_rendering :
    formatValue true (.bool true) = "✓" ∧
    formatValue true (.bool false) = "✗" ∧
    formatValue false (.bool false) = "False" ∧
    formatValue false (.bool true) = "✓" ∧ ("✓" : String) ≠ "True" :=
  ⟨rfl, rfl, rfl, rfl, by decide⟩

/-- C9: rendering an empty sequence under the table variant returns
exactly the string "No data to display", for every color-flag
setting. -/
theorem table_empty_list (color : Bool) :
    tableFormat color (.arr []) = .ok (.text "No data to display") := rfl

theorem pyCharLower_digit (c : Char) (h : c.isDigit = true) : pyCharLower c = c := by
  have h' : ('0' ≤ c ∧ c ≤ '9') := by
    simpa [Char.isDigit, decide_eq_true_eq] using h
  unfold pyCharLower
  rw [if_neg]
  rintro ⟨hA, -⟩
  exact absurd (le_trans hA h'.2) (by decide)

theorem map_pyCharLower_digits (l : List Char)
    (h : ∀ c ∈ l, c.isDigit = true) : l.map pyCharLower = l := by
  induction l with
  | nil => rfl
  | cons c rest ih =>
    simp only [List.map_cons, List.cons.injEq]
    exact ⟨pyCharLower_digit c (h c (List.mem_cons_self c rest)),
           ih (fun x hx => h x (List.mem_cons_of_mem c hx))⟩

theorem pyLower_of_digits (v : String) (h : pyIsDigit v = true) :
    pyLower v = v := by
  simp only [pyIsDigit, Bool.and_eq_true, List.all_eq_true] at h
  obtain ⟨-, hall⟩ := h
  have hmap := map_pyCharLower_digits v.data (fun c hc => by
    simpa using hall c hc)
  show String.mk (v.data.map pyCharLower) = v
  rw [hmap]

theorem pyLower_of_digits_ne (v : String) (h : pyIsDigit v = true) :
    pyLower v ≠ "true" ∧ pyLower v ≠ "false" := by
  rw [pyLower_of_digits v h]
  simp only [pyIsDigit, Bool.and_eq_true, List.all_eq_true] at h
  obtain ⟨-, hall⟩ := h
  constructor <;> intro heq <;> subst heq
  · have ht : ('t' : Char).isDigit = true := by simpa using hall 't' (by decide)
    exact absurd ht (by decide)
  · have hf : ('f' : Char).isDigit = true := by simpa using hall 'f' (by decide)
    exact absurd hf (by decide)

/-- C8: the ad hoc heuristic type inference of `page create` encodes a
value case-insensitively equal to "true"/"false" as a checkbox payload,
an all-digits value as an integer number payload, and any other value as
a rich_text payload with one run carrying the value. -/
theorem heuristic_type_inference (value : String) :
    (pyLower value = "true" →
      inferPropertyValue value = .obj [("checkbox", .bool true)]) ∧
    (pyLower value = "false" →
      inferPropertyValue value = .obj [("checkbox", .bool false)]) ∧
    (pyIsDigit value = true →
      inferPropertyValue value = .obj [("number", .num (.finite (digitsToNat value)))]) ∧
    (pyLower value ≠ "true" → pyLower value ≠ "false" → pyIsDigit value = false →
      inferPropertyValue value = .obj [("rich_text", .arr [textRun value])]) := by
  refine ⟨fun h => by simp [inferPropertyValue, h],
          fun h => by simp [inferPropertyValue, h],
          fun h => ?_, fun h1 h2 h3 => by simp [inferPropertyValue, h1, h2, h3]⟩
  obtain ⟨h1, h2⟩ := pyLower_of_digits_ne value h
  simp [inferPropertyValue, h, h1, h2]

theorem heuristic_type_inference_witness :
    inferPropertyValue "TRUE" = .obj [("checkbox", .bool true)] ∧
    inferPropertyValue "42" = .obj [("number", .num (.finite (digitsToNat "42")))] ∧
    inferPropertyValue "abc" = .obj [("rich_text", .arr [textRun "abc"])] :=
  ⟨(heuristic_type_inference "TRUE").1 (by decide),
   (heuristic_type_inference "42").2.2.1 (by decide),
   (heuristic_type_inference "abc").2.2.2 (by decide) (by decide) (by decide)⟩

theorem paginate_cons {α : Type} (pending params : Option String)
    (r : PageResponse α) (rest : List (PageResponse α)) :
    paginate pending params (r :: rest) =
      (if r.has_more then
        match paginate r.next_cursor
            (if cursorTruthy pending then pending else params) rest with
        | some (items, calls) =>
          some (r.results ++ items,
            (if cursorTruthy pending then pending else params) :: calls)
        | none => none
      else some (r.results,
        [if cursorTruthy pending then pending else params])) := rfl

theorem expectedCalls_cons {α : Type} (pending params : Option String)
    (r : PageResponse α) (rest : List (PageResponse α)) :
    expectedCalls pending params (r :: rest) =
      (if cursorTruthy pending then pending else params) ::
        expectedCalls r.next_cursor
          (if cursorTruthy pending then pending else params) rest := rfl

theorem paginate_eq_of_wf {α : Type} :
    ∀ (rs : List (PageResponse α)), wellFormedPages rs →
    ∀ pending params, paginate pending params rs =
      some (concatResults rs, expectedCalls pending params rs)
  | [], h => absurd h (by simp [wellFormedPages])
  | [r], h => by
    intro pending params
    simp only [wellFormedPages] at h
    simp [paginate, expectedCalls, concatResults, h]
  | r :: r2 :: rest, h => by
    intro pending params
    simp only [wellFormedPages] at h
    obtain ⟨hm, hwf⟩ := h
    have ih := paginate_eq_of_wf (r2 :: rest) hwf
    rw [paginate_cons, ih]
    simp [hm, concatResults, expectedCalls_cons]

theorem expectedCalls_eq {α : Type} :
    ∀ (rs : List (PageResponse α)), rs ≠ [] →
    (∀ r ∈ rs.dropLast, cursorTruthy r.next_cursor = true) →
    ∀ pending params, expectedCalls pending params rs =
      (if cursorTruthy pending then pending else params) ::
        rs.dropLast.map (fun r => r.next_cursor)
  | [], h, _ => absurd rfl h
  | [r], _, _ => by
    intro pending params
    simp [expectedCalls, List.dropLast]
  | r :: r2 :: rest, _, hc => by
    intro pending params
    have hr : cursorTruthy r.next_cursor = true :=
      hc r (by simp [List.dropLast])
    have ih := expectedCalls_eq (r2 :: rest) (by simp)
      (fun x hx => hc x (List.mem_cons_of_mem r hx))
    rw [expectedCalls_cons, ih]
    simp [hr, List.dropLast]

/-- C1 (amended): for every sequence of N pages (N ≥ 1, since the loop's
first fetch always receives a response) with `has_more` true on all but
the last page and false on the last, in which every non-final response
carries a truthy (non-null, non-empty) `next_cursor`, the aggregation
loop of `NotionClient.search` / `query_database` returns the
concatenation of all pages' items in page order, invokes the fetch
exactly N times, passes the prior response's `next_cursor` on each
re-invocation, and terminates as soon as `has_more` is false regardless
of the final response's `next_cursor`.  (Without the truthy-cursor
condition the loop re-sends the most recent truthy cursor instead — see
the counterexample.) -/
theorem pagination_exhaustion {α : Type} (rs : List (PageResponse α))
    (hwf : wellFormedPages rs)
    (hc : ∀ r ∈ rs.dropLast, cursorTruthy r.next_cursor = true) :
    runPaginated rs =
      some (concatResults rs, none :: rs.dropLast.map (fun r => r.next_cursor)) ∧
    (none :: rs.dropLast.map (fun r => r.next_cursor)).length = rs.length := by
  have hne : rs ≠ [] := by
    cases rs with
    | nil => exact absurd hwf (by simp [wellFormedPages])
    | cons r rest => simp
  constructor
  · rw [runPaginated, paginate_eq_of_wf rs hwf, expectedCalls_eq rs hne hc]
    simp [cursorTruthy]
  · simp only [List.length_cons, List.length_map, List.length_dropLast]
    cases rs with
    | nil => exact absurd rfl hne
    | cons r rest => simp

/-- C1 (counterexample): on the trace whose second page has
`has_more = true` but a null `next_cursor`, the third invocation passes
the stale cursor `"c1"` (left in `params` from the first response)
rather than the prior response's `next_cursor` (null); and with an empty
response sequence the loop still demands a first fetch (the aggregator
cannot invoke the fetch zero times and return `[]`). -/
theorem pagination_claim_counterexample :
    runPaginated [({ results := [1], has_more := true, next_cursor := some "c1" }
        : PageResponse ℕ),
      { results := [2], has_more := true, next_cursor := none },
      { results := [3], has_more := false, next_cursor := none }] =
      some ([1, 2, 3], [none, some "c1", some "c1"]) ∧
    (some "c1" ≠ (none : Option String)) ∧
    runPaginated ([] : List (PageResponse ℕ)) = none :=
  ⟨rfl, by decide, rfl⟩

theorem pagination_exhaustion_witness :
    wellFormedPages [({ results := [1, 2], has_more := true, next_cursor := some "a" }
        : PageResponse ℕ),
      { results := [3], has_more := false, next_cursor := none }] ∧
    (∀ r ∈ ([({ results := [1, 2], has_more := true, next_cursor := some "a" }
        : PageResponse ℕ),
      { results := [3], has_more := false, next_cursor := none }] :
        List (PageResponse ℕ)).dropLast, cursorTruthy r.next_cursor = true) ∧
    runPaginated [({ results := [1, 2], has_more := true, next_cursor := some "a" }
        : PageResponse ℕ),
      { results := [3], has_more := false, next_cursor := none }] =
      some ([1, 2, 3], [none, some "a"]) := by
  refine ⟨by decide, by decide, ?_⟩
  exact (pagination_exhaustion _ (by decide) (by decide)).1

theorem encode_number_branch (name value : String) :
    encodeForSchemaType (some (.str "number")) name value =
      (match pyFloat? value with
       | some x => .payload (.obj [("number", .num x)])
       | none => .failed (.invalidNumberValue name value)) := rfl

/-- C3: for a number-typed property, the write-direction encode parses
the user string with `float(...)` — `"42"` yields the numeric 42 — and
fails locally (error message + `ctx.exit(1)`, the spec's
`InvalidValueError`) exactly when the string is not numeric; on such a
failure the page-creation request is never issued (the remote trace
stops at the schema fetch). -/
theorem number_encode_local_failure :
    (∀ name value q, pyFloat? value = some q →
      encodeForSchemaType (some (.str "number")) name value =
        .payload (.obj [("number", .num q)])) ∧
    (∀ name value, pyFloat? value = none →
      encodeForSchemaType (some (.str "number")) name value =
        .failed (.invalidNumberValue name value)) ∧
    encodeForSchemaType (some (.str "number")) "N" "42" =
      .payload (.obj [("number", .num (.finite 42))]) ∧
    encodeForSchemaType (some (.str "number")) "N" "abc" =
      .failed (.invalidNumberValue "N" "abc") ∧
    (∀ dbId schema props e, buildPageProperties schema props = .error e →
      createPageCalls dbId schema props = [.getDatabase dbId]) := by
  have h42 : pyFloat? "42" = some (.finite 42) := by
    simp +decide [pyFloat?, parseDecimal, takeDigits, digitVal]
  have habc : pyFloat? "abc" = none := by
    simp +decide [pyFloat?, parseDecimal, takeDigits, digitVal]
  refine ⟨fun name value q h => ?_, fun name value h => ?_, ?_, ?_,
          fun dbId schema props e h => ?_⟩
  · rw [encode_number_branch, h]
  · rw [encode_number_branch, h]
  · rw [encode_number_branch, h42]
  · rw [encode_number_branch, habc]
  · simp [createPageCalls, h]

theorem number_encode_local_failure_witness :
    pyFloat? "3" = some (.finite 3) ∧
    encodeForSchemaType (some (.str "number")) "N" "3" =
      .payload (.obj [("number", .num (.finite 3))]) ∧
    buildPageProperties [("N", .obj [("type", .str "number")])] ["N=abc"] =
      .error (.invalidNumberValue "N" "abc") ∧
    createPageCalls "db1" [("N", .obj [("type", .str "number")])] ["N=abc"] =
      [.getDatabase "db1"] := by
  have h3 : pyFloat? "3" = some (.finite 3) := by
    simp +decide [pyFloat?, parseDecimal, takeDigits, digitVal]
  refine ⟨h3, number_encode_local_failure.1 "N" "3" _ h3, rfl, ?_⟩
  exact number_encode_local_failure.2.2.2.2 "db1" _ _
    (.invalidNumberValue "N" "abc") rfl

theorem notionClientInit_some (a : String) (ha : a ≠ "")
    (envKey : Option String) (search : String → Nat → Except ApiError (List JVal)) :
    notionClientInit (some a) envKey search =
      (match search "" 1 with
       | .ok _ => (.ok a, [("", 1)])
       | .error _ => (.connectionError, [("", 1)])) := by
  simp [notionClientInit, strOptTruthy, ha]

theorem notionClientInit_not_truthy (authArg envKey : Option String)
    (search : String → Nat → Except ApiError (List JVal))
    (hA : strOptTruthy authArg = false) :
    notionClientInit authArg envKey search =
      (match envKey with
       | none => (.noApiKeyError, [])
       | some a =>
         if a = "" then (.noApiKeyError, [])
         else match search "" 1 with
              | .ok _ => (.ok a, [("", 1)])
              | .error _ => (.connectionError, [("", 1)])) := by
  simp [notionClientInit, hA]

theorem init_shape (authArg envKey : Option String)
    (search : String → Nat → Except ApiError (List JVal)) :
    (strOptTruthy authArg = false ∧ strOptTruthy envKey = false ∧
      notionClientInit authArg envKey search = (.noApiKeyError, [])) ∨
    ((strOptTruthy authArg = true ∨ strOptTruthy envKey = true) ∧
      ∃ a, a ≠ "" ∧ notionClientInit authArg envKey search =
        (match search "" 1 with
         | .ok _ => (.ok a, [("", 1)])
         | .error _ => (.connectionError, [("", 1)]))) := by
  cases hA : strOptTruthy authArg with
  | true =>
    match authArg, hA with
    | some a, hA =>
      have ha : a ≠ "" := by simpa [strOptTruthy] using hA
      exact .inr ⟨.inl rfl, a, ha, notionClientInit_some a ha envKey search⟩
  | false =>
    cases hE : strOptTruthy envKey with
    | true =>
      match envKey, hE with
      | some e, hE =>
        have he : e ≠ "" := by simpa [strOptTruthy] using hE
        refine .inr ⟨.inr rfl, e, he, ?_⟩
        rw [notionClientInit_not_truthy _ _ _ hA]
        simp [he]
    | false =>
      refine .inl ⟨rfl, rfl, ?_⟩
      rw [notionClientInit_not_truthy _ _ _ hA]
      cases envKey with
      | none => rfl
      | some e =>
        have he : e = "" := by simpa [strOptTruthy] using hE
        subst he
        rfl

/-- C10: constructing the façade fails with the configuration error
(`ValueError`) before any remote call when neither the auth argument nor
the `NOTION_API_KEY` environment variable supplies a credential; with a
credential, construction issues exactly one remote search request (empty
query, page size 1), raises `ConnectionError` when that request fails
with an API error, and returns an instance only when it succeeded — so
no instance exists without one successful remote call. -/
theorem client_init_connectivity (authArg envKey : Option String)
    (search : String → Nat → Except ApiError (List JVal)) :
    (strOptTruthy authArg = false → strOptTruthy envKey = false →
      notionClientInit authArg envKey search = (.noApiKeyError, [])) ∧
    ((strOptTruthy authArg = true ∨ strOptTruthy envKey = true) →
      (notionClientInit authArg envKey search).2 = [("", 1)] ∧
      (∀ r, search "" 1 = .ok r →
        ∃ a, (notionClientInit authArg envKey search).1 = .ok a) ∧
      (∀ e, search "" 1 = .error e →
        (notionClientInit authArg envKey search).1 = .connectionError)) ∧
    (∀ a, (notionClientInit authArg envKey search).1 = .ok a →
      (notionClientInit authArg envKey search).2 = [("", 1)] ∧
      ∃ r, search "" 1 = .ok r) := by
  rcases init_shape authArg envKey search with ⟨hA, hE, heq⟩ | ⟨htru, a, ha, heq⟩
  · refine ⟨fun _ _ => heq, fun h => ?_, fun a hok => ?_⟩
    · rcases h with h | h
      · rw [hA] at h; cases h
      · rw [hE] at h; cases h
    · rw [heq] at hok; cases hok
  · refine ⟨fun h1 h2 => ?_, fun _ => ?_, fun a' hok => ?_⟩
    · rcases htru with h | h
      · rw [h1] at h; cases h
      · rw [h2] at h; cases h
    · rw [heq]
      cases hs : search "" 1 with
      | ok r =>
        refine ⟨rfl, ?_, ?_⟩
        · intro r' _
          exact ⟨a, rfl⟩
        · intro e he
          cases he
      | error e =>
        refine ⟨rfl, ?_, ?_⟩
        · intro r' hr
          cases hr
        · intro _ _
          rfl
    · rw [heq] at hok ⊢
      cases hs : search "" 1 with
      | ok r =>
        rw [hs] at hok
        exact ⟨rfl, r, rfl⟩
      | error e =>
        rw [hs] at hok
        cases hok

theorem client_init_connectivity_witness :
    notionClientInit none none (fun _ _ => (.ok [] : Except ApiError (List JVal))) =
      (.noApiKeyError, []) ∧
    (notionClientInit (some "key") none
      (fun _ _ => (.ok [] : Except ApiError (List JVal)))).2 = [("", 1)] ∧
    (notionClientInit (some "key") none
      (fun _ _ => (.error (.apiResponseError "boom")
        : Except ApiError (List JVal)))).1 = .connectionError := by
  refine ⟨(client_init_connectivity none none _).1 rfl rfl, ?_, ?_⟩
  · exact ((client_init_connectivity (some "key") none _).2.1 (.inl (by decide))).1
  · exact ((client_init_connectivity (some "key") none _).2.1
      (.inl (by decide))).2.2 (.apiResponseError "boom") rfl

theorem richtext_extraction_concat_witness :
    ([.obj [("plain_text", .str "Hel")], .obj [("type", .str "text")],
      .obj [("plain_text", .str "lo")]] : List JVal).all wfRun = true ∧
    getTextFromRichText (.arr [.obj [("plain_text", .str "Hel")],
      .obj [("type", .str "text")], .obj [("plain_text", .str "lo")]]) = .ok "Hello" := by
  refine ⟨by decide, ?_⟩
  have h := richtext_extraction_concat
    [.obj [("plain_text", .str "Hel")], .obj [("type", .str "text")],
     .obj [("plain_text", .str "lo")]] (by decide)
  exact h.1

end NotionCli
